import Mathlib
set_option maxHeartbeats 2000000

/-!
Verification of the log-parsing and sensitive-data-masking core of the
LogPiolt repository (a React log-analysis tool).

The TypeScript source operates on JavaScript strings with chained
`String.prototype.replace` calls over regular expressions.  We embed it
shallowly: strings are `List Char`, each regular expression becomes a
bespoke deterministic matcher that reproduces the JS engine's
leftmost-first, greedy-with-backtracking semantics (backtracking is
represented by candidate lists in the engine's preference order), and the
global replace is a left-to-right scan over the original string.
-/

namespace LogPilot

/-! ## Character classes (JS `\d`, `\w`, `\s`, ASCII case folding) -/

/-- ASCII lowercasing, as JS `toLowerCase` acts on ASCII letters. -/
def lowerC (c : Char) : Char :=
  if 'A' ≤ c ∧ c ≤ 'Z' then Char.ofNat (c.toNat + 32) else c

def isDigitC (c : Char) : Bool := decide ('0' ≤ c ∧ c ≤ '9')

def isAlphaC (c : Char) : Bool :=
  decide (('a' ≤ c ∧ c ≤ 'z') ∨ ('A' ≤ c ∧ c ≤ 'Z'))

/-- JS `\w` = `[A-Za-z0-9_]`. -/
def isWordC (c : Char) : Bool := isAlphaC c || isDigitC c || c = '_'

/-- JS `[0-9a-fA-F]`. -/
def isHexC (c : Char) : Bool :=
  isDigitC c || decide ('a' ≤ c ∧ c ≤ 'f') || decide ('A' ≤ c ∧ c ≤ 'F')

/-- JS `\s` (the ASCII part: space, tab, LF, VT, FF, CR). -/
def isSpaceC (c : Char) : Bool :=
  c = ' ' || c = '\t' || c = '\n' || c = '\x0b' || c = '\x0c' || c = '\r'

/-- Is this (optional) character a word character?  `none` (string edge)
counts as a non-word position, as in JS `\b`. -/
def wordO : Option Char → Bool
  | some c => isWordC c
  | none => false

/-- JS word boundary `\b` between a left and right context character. -/
def boundaryB (l r : Option Char) : Bool := xor (wordO l) (wordO r)

/-! ## String helpers mirroring JS primitives -/

/-- Length of the maximal prefix of `s` whose characters satisfy `p`. -/
def takeRun (p : Char → Bool) : List Char → Nat
  | [] => 0
  | c :: r => if p c then takeRun p r + 1 else 0

/-- `jsTrimL` models `String.prototype.trim` (ASCII whitespace). -/
def jsTrimL (s : List Char) : List Char :=
  ((s.dropWhile isSpaceC).reverse.dropWhile isSpaceC).reverse

/-- `String.prototype.split(sep)` for a single-character separator:
keeps empty segments, `"" → [""]`. -/
def splitOnC (sep : Char) : List Char → List (List Char)
  | [] => [[]]
  | c :: r =>
    let rs := splitOnC sep r
    if c = sep then [] :: rs
    else
      match rs with
      | h :: t => (c :: h) :: t
      | [] => [[c]]

/-- Case-insensitive literal test: does `s` start with `kw`? -/
def startsWithCI : List Char → List Char → Bool
  | [], _ => true
  | _ :: _, [] => false
  | k :: ks, c :: cs => lowerC k = lowerC c && startsWithCI ks cs

/-- Case-sensitive literal test. -/
def startsWithL : List Char → List Char → Bool
  | [], _ => true
  | _ :: _, [] => false
  | k :: ks, c :: cs => k = c && startsWithL ks cs

/-- Does `sub` occur as a contiguous substring of `s`?
(Models `String.prototype.includes`.) -/
def containsSub (s sub : List Char) : Bool :=
  match s with
  | [] => startsWithL sub []
  | _ :: r => startsWithL sub s || containsSub r sub

/-! ## A small matching framework reproducing JS regex semantics

A `MStep` consumes characters from the input and returns the list of
possible `(consumed count, remaining input)` states **in the JS engine's
backtracking preference order** (greedy quantifiers produce their longest
alternative first, `?` tries the consuming alternative first, `|` tries
its branches left to right).  Sequencing is `List.bind`, which explores
later choice points first — exactly the engine's most-recent-first
backtracking.  A rule matcher then takes the first state that survives
the trailing checks (e.g. a trailing `\b`). -/

abbrev MState := Nat × List Char

abbrev MStep := MState → List MState

/-- Sequencing of two steps (regex concatenation). -/
def mseq (a b : MStep) : MStep := fun st => (a st).flatMap b

/-- Ordered alternation (regex `|`). -/
def malt (a b : MStep) : MStep := fun st => a st ++ b st

/-- Greedy option (regex `x?`): try consuming first. -/
def mopt (a : MStep) : MStep := fun st => a st ++ [st]

/-- One character from a class (regex `[...]` / `[^...]`). -/
def mchar (p : Char → Bool) : MStep := fun st =>
  match st with
  | (n, c :: r) => if p c then [(n + 1, r)] else []
  | (_, []) => []

/-- Case-sensitive literal. -/
def mlit (kw : List Char) : MStep := fun st =>
  match st with
  | (n, s) => if startsWithL kw s then [(n + kw.length, s.drop kw.length)] else []

/-- Case-insensitive literal (a `/i` regex). -/
def mlitCI (kw : List Char) : MStep := fun st =>
  match st with
  | (n, s) => if startsWithCI kw s then [(n + kw.length, s.drop kw.length)] else []

/-- `[hi, hi-1, ..., lo]` (empty if `hi < lo`). -/
def countdownFrom (hi lo : Nat) : List Nat :=
  (List.range (hi + 1 - lo)).map (fun k => hi - k)

/-- Greedy bounded character-class repetition (regex `c{lo,hi}`):
candidates are the run lengths from longest to shortest.  Because each
iteration consumes exactly one class character, the reachable lengths are
the prefixes of the maximal run, which is the JS exploration order. -/
def mrep (p : Char → Bool) (lo hi : Nat) : MStep := fun st =>
  match st with
  | (n, s) =>
    let m := min (takeRun p s) hi
    if m < lo then []
    else (countdownFrom m lo).map (fun k => (n + k, s.drop k))

/-- Greedy unbounded class repetition with a minimum (regex `c{lo,}`,
`c+` = `lo := 1`, `c*` = `lo := 0`). -/
def mrepGe (p : Char → Bool) (lo : Nat) : MStep := fun st =>
  match st with
  | (n, s) =>
    let m := takeRun p s
    if m < lo then []
    else (countdownFrom m lo).map (fun k => (n + k, s.drop k))

/-- Exactly `k` class characters (regex `c{k}`). -/
def mexact (p : Char → Bool) (k : Nat) : MStep := mrep p k k

/-- `k`-fold repetition of a general step. -/
def mtimes : Nat → MStep → MStep
  | 0, _ => fun st => [st]
  | k + 1, a => mseq a (mtimes k a)

/-- Greedy bounded repetition of a general step (regex `(...){lo,hi}`),
trying the largest repetition count first. -/
def mrepStep (a : MStep) (lo hi : Nat) : MStep := fun st =>
  (countdownFrom hi lo).flatMap (fun k => mtimes k a st)

/-- Sequence a whole list of steps. -/
def mseqs : List MStep → MStep
  | [] => fun st => [st]
  | a :: rest => mseq a (mseqs rest)

/-- Run a matcher at the current position.  `leadWB`/`trailWB` add the
leading/trailing `\b` assertions (these are position assertions, checked
against the characters adjacent to the match).  `prev` is the character
just before the current position (`none` at the string start).  Returns
the length of the match chosen by the JS engine, if any. -/
def runM (leadWB trailWB : Bool) (step : MStep) (prev : Option Char)
    (s : List Char) : Option Nat :=
  if leadWB && !boundaryB prev s.head? then none
  else
    ((step (0, s)).filter (fun st =>
        !trailWB || boundaryB (s.take st.1).getLast? st.2.head?)).head?.map
      (fun st => st.1)

/-- A positioned matcher: given the previous character and the remaining
input, the length of the match starting here, if any. -/
abbrev Matcher := Option Char → List Char → Option Nat

/-- The scan underlying `String.prototype.replace` with a `/g` regex:
try the matcher at each position of the **original** string from left to
right; on a match, emit `f matched` and resume just after the match
(replacement text is never rescanned). -/
def replGo (m : Matcher) (f : List Char → List Char) :
    Nat → Option Char → List Char → List Char
  | 0, _, s => s
  | _ + 1, _, [] => []
  | fuel + 1, prev, c :: rest =>
    match m prev (c :: rest) with
    | some n =>
      if n = 0 then c :: replGo m f fuel (some c) rest
      else
        f ((c :: rest).take n) ++
          replGo m f fuel ((c :: rest).take n).getLast? ((c :: rest).drop n)
    | none => c :: replGo m f fuel (some c) rest

/-- `s.replace(re, f)` for a global regex embodied by `m`.  The fuel
`s.length` is always sufficient: every recursive step consumes at least
one character of the scanned string. -/
def jsReplace (m : Matcher) (f : List Char → List Char) (s : List Char) :
    List Char :=
  replGo m f s.length none s

/-- `s.replace(re, repl)` with a constant replacement string. -/
def jsReplaceConst (m : Matcher) (repl : List Char) (s : List Char) :
    List Char :=
  jsReplace m (fun _ => repl) s

/-- `s.match(re)` (non-global): the first match's text, scanning
positions left to right. -/
def searchGo (m : Matcher) : Option Char → List Char → Option (List Char)
  | prev, [] => (m prev []).map (fun n => ([] : List Char).take n)
  | prev, c :: rest =>
    match m prev (c :: rest) with
    | some n => some ((c :: rest).take n)
    | none => searchGo m (some c) rest

def jsSearch (m : Matcher) (s : List Char) : Option (List Char) :=
  searchGo m none s

/-! ## The platform URL object used by `maskUrl`

`maskUrl` (src/unnamed/part_000, lines 407–431) calls the browser's
WHATWG `new URL` constructor, which is not code of this repository.
Modelled from the spec: §4.2 "`maskUrl(url)`: attempt to parse the string
as a structured URL.  If parseable: clear embedded credentials (user-info)
to a sentinel if present; for every query parameter whose name contains
(case-insensitive substring) any of token, key, password, secret, auth,
replace its value with a sentinel; reserialize to a URL string.  If
parsing fails (malformed/relative-without-base): fall back to a
regex-based partial masking."  The model below reproduces the WHATWG
behavior the code relies on for the inputs considered in this
development: a URL parses only when it starts with a scheme; `http`/
`https` URLs get an authority whose host is ASCII-lowercased (the IDNA
ASCII mapping) and must avoid the forbidden host code points; an absent
path serializes as `/`; other schemes keep their text after the colon
verbatim.  (IPv4/IPv6 host canonicalization, percent-coding and
dot-segment removal are outside the model; no theorem below depends on
them.) -/

structure JsUrl where
  scheme : String
  noAuthority : Bool
  username : String
  password : String
  host : String
  port : String
  path : String
  query : Option String
  fragment : Option String
  deriving Repr, DecidableEq

/-- Scheme recognition: an ASCII letter followed by letters, digits,
`+`, `-` or `.`, terminated by `:`.  Returns the scheme characters and
the text after the colon. -/
def takeSchemeGo (acc : List Char) : List Char → Option (List Char × List Char)
  | [] => none
  | c :: rest =>
    if c = ':' then some (acc.reverse, rest)
    else if isAlphaC c || isDigitC c || c = '+' || c = '-' || c = '.' then
      takeSchemeGo (c :: acc) rest
    else none

def takeScheme : List Char → Option (List Char × List Char)
  | [] => none
  | c :: rest => if isAlphaC c then takeSchemeGo [c] rest else none

/-- WHATWG forbidden host code points (plus `%`, forbidden in domains). -/
def forbiddenHostC (c : Char) : Bool :=
  c = '\x00' || c = '\t' || c = '\n' || c = '\r' || c = ' ' || c = '#' ||
  c = '/' || c = ':' || c = '<' || c = '>' || c = '?' || c = '@' ||
  c = '[' || c = '\\' || c = ']' || c = '^' || c = '|' || c = '%'

/-- Split an authority at its last `@` into userinfo and host-port. -/
def splitLastAt (auth : List Char) : Option (List Char) × List Char :=
  match splitOnC '@' auth with
  | [hp] => (none, hp)
  | parts =>
    match parts.getLast? with
    | some hp => (some (List.intercalate ['@'] (parts.dropLast)), hp)
    | none => (none, [])

/-- Parse of the model URL (see the section comment). -/
def jsUrlParse (s : List Char) : Option JsUrl :=
  match takeScheme s with
  | none => none
  | some (sch, rest) =>
    let scheme := String.mk (sch.map lowerC)
    if scheme = "http" ∨ scheme = "https" then
      -- special scheme: skip the slashes introducing the authority
      -- (WHATWG accepts any number of `/` or `\`), then read
      -- authority, path, query, fragment
      let rest := rest.dropWhile (fun c => c = '/' || c = '\\')
      let authLen := takeRun (fun c => !(c = '/' || c = '\\' || c = '?' || c = '#')) rest
      let auth := rest.take authLen
      let afterAuth := rest.drop authLen
      let (ui, hostport) := splitLastAt auth
      let (username, password) :=
        match ui with
        | none => ("", "")
        | some u =>
          let i := takeRun (fun c => c ≠ ':') u
          (String.mk (u.take i), String.mk (u.drop (i + 1)))
      let hl := takeRun (fun c => c ≠ ':') hostport
      let hostRaw := hostport.take hl
      let portRaw := hostport.drop (hl + 1)
      if hostRaw = [] ∨ hostRaw.any forbiddenHostC ∨ ¬ portRaw.all isDigitC then
        none
      else
        let host := String.mk (hostRaw.map lowerC)
        let port :=
          if portRaw = [] then ""
          else
            let n := portRaw.foldl (fun a c => a * 10 + (c.toNat - 48)) 0
            if (scheme = "http" ∧ n = 80) ∨ (scheme = "https" ∧ n = 443) then ""
            else Nat.repr n
        let pathLen := takeRun (fun c => !(c = '?' || c = '#')) afterAuth
        let path := String.mk ((afterAuth.take pathLen).map
          (fun c => if c = '\\' then '/' else c))
        let afterPath := afterAuth.drop pathLen
        let (query, fragment) :=
          match afterPath with
          | '?' :: qf =>
            let ql := takeRun (fun c => c ≠ '#') qf
            (some (String.mk (qf.take ql)),
             match qf.drop ql with
             | '#' :: fr => some (String.mk fr)
             | _ => none)
          | '#' :: fr => (none, some (String.mk fr))
          | _ => (none, none)
        some { scheme, noAuthority := false, username, password, host, port,
               path, query, fragment }
    else
      -- non-special scheme: an opaque path, kept verbatim
      let pathLen := takeRun (fun c => !(c = '?' || c = '#')) rest
      let path := String.mk (rest.take pathLen)
      let afterPath := rest.drop pathLen
      let (query, fragment) :=
        match afterPath with
        | '?' :: qf =>
          let ql := takeRun (fun c => c ≠ '#') qf
          (some (String.mk (qf.take ql)),
           match qf.drop ql with
           | '#' :: fr => some (String.mk fr)
           | _ => none)
        | '#' :: fr => (none, some (String.mk fr))
        | _ => (none, none)
      some { scheme, noAuthority := true, username := "", password := "",
             host := "", port := "", path, query, fragment }

/-- Serialization (`urlObj.toString()` / `href`) of the model URL. -/
def jsUrlSerialize (u : JsUrl) : List Char :=
  u.scheme.toList ++ [':'] ++
  (if u.noAuthority then u.path.toList
   else
     ['/', '/'] ++
     (if u.username ≠ "" ∨ u.password ≠ "" then
        u.username.toList ++
          (if u.password ≠ "" then ':' :: u.password.toList else []) ++ ['@']
      else []) ++
     u.host.toList ++
     (if u.port ≠ "" then ':' :: u.port.toList else []) ++
     (if u.path = "" then ['/'] else u.path.toList)) ++
  (match u.query with | some q => '?' :: q.toList | none => []) ++
  (match u.fragment with | some f => '#' :: f.toList | none => [])

/-! ## `maskUrl` (src/unnamed/part_000, lines 407–431) -/

/-- The sensitive query-parameter name fragments of `maskUrl`. -/
def sensitiveParams : List String := ["token", "key", "password", "secret", "auth"]

/-- Masking of the query of a successfully parsed URL: for every
parameter whose name contains one of `sensitiveParams`
(case-insensitively), the value is replaced by `***MASKED***`
(`urlObj.searchParams` loop of the source). -/
def maskQuery (q : List Char) : List Char :=
  List.intercalate ['&']
    (((splitOnC '&' q).filter (fun seg => seg ≠ [])).map (fun seg =>
      let i := takeRun (fun c => c ≠ '=') seg
      let name := seg.take i
      if sensitiveParams.any (fun p => containsSub (name.map lowerC) p.toList) then
        name ++ '=' :: "***MASKED***".toList
      else seg))

/-- The structured-URL branch of `maskUrl`: clear user-info to `***` when
present, then mask sensitive query parameters. -/
def maskJsUrl (u : JsUrl) : JsUrl :=
  let u :=
    if u.username ≠ "" ∨ u.password ≠ "" then
      { u with username := "***", password := "***" }
    else u
  match u.query with
  | some q => { u with query := some (String.mk (maskQuery q.toList)) }
  | none => u

/-- The fallback regex of `maskUrl`:
`/([?&](token|key|password|secret|auth)[^=]*=)[^&]*/gi`. -/
def fallbackKw : MStep :=
  malt (mlitCI "token".toList)
    (malt (mlitCI "key".toList)
      (malt (mlitCI "password".toList)
        (malt (mlitCI "secret".toList) (mlitCI "auth".toList))))

def fallbackStep : MStep :=
  mseqs [mchar (fun c => c = '?' || c = '&'), fallbackKw,
         mrepGe (fun c => c ≠ '=') 0, mchar (fun c => c = '='),
         mrepGe (fun c => c ≠ '&') 0]

def fallbackMatcher : Matcher := fun p s => runM false false fallbackStep p s

/-- Replacement `'$1***MASKED***'`: group 1 is everything up to and
including the first `=` of the match. -/
def fallbackRepl (m : List Char) : List Char :=
  m.take (takeRun (fun c => c ≠ '=') m + 1) ++ "***MASKED***".toList

def fallbackMaskL (s : List Char) : List Char :=
  jsReplace fallbackMatcher fallbackRepl s

/-- `maskUrl` on character lists; `maskUrl` below is the `String` façade.
Mirrors the source: empty strings are returned as-is (`if (!url) return
url`), a parseable URL is masked structurally and reserialized, and on
parse failure the fallback regex masks `?`/`&`-introduced sensitive
`name=value` pairs. -/
def maskUrlL (url : List Char) : List Char :=
  if url = [] then url
  else
    match jsUrlParse url with
    | some u => jsUrlSerialize (maskJsUrl u)
    | none => fallbackMaskL url

def maskUrl (url : String) : String := String.mk (maskUrlL url.toList)

/-! ## `maskSensitiveData` (src/unnamed/part_000, lines 342–405)

The source is a chain of 27 `.replace` calls applied top to bottom; each
definition below names the regex it embeds. -/

/-- The sentinel `'***MASKED***'`. -/
def mMasked : List Char := "***MASKED***".toList

/-- Value class of the credential rules: `[^\s&,;)}\]'"]`. -/
def valA (c : Char) : Bool :=
  !(isSpaceC c || ['&', ',', ';', ')', '\x7d', ']', '\x27', '\x22'].contains c)

/-- Value class of the URL rules: `[^\s,;)}\]'"]`. -/
def valB (c : Char) : Bool :=
  !(isSpaceC c || [',', ';', ')', '\x7d', ']', '\x27', '\x22'].contains c)

/-- Value class of the connection-string rules (`[^\s;,)}\]]`), also the
class of the parser's URL regexes and of the Unix-path rule
(`[^\s,;)}\]]`). -/
def valC (c : Char) : Bool :=
  !(isSpaceC c || [',', ';', ')', '\x7d', ']'].contains c)

/-- Build a `Matcher` from a step and its `\b` flags. -/
def mkM (leadWB trailWB : Bool) (step : MStep) : Matcher :=
  fun p s => runM leadWB trailWB step p s

/-- Credential rule `kw[=:]\s*[^\s&,;)}\]'"]+` (`/gi`), rules 1, 2, 6, 7
of the chain (`password`, `token`, `jwt`, `session`). -/
def kvStepA (kw : String) : MStep :=
  mseqs [mlitCI kw.toList, mchar (fun c => c = '=' || c = ':'),
         mrepGe isSpaceC 0, mrepGe valA 1]

/-- Rule 3: `api[_-]?key[=:]\s*[^\s&,;)}\]'"]+` (`/gi`). -/
def apiKeyStep : MStep :=
  mseqs [mlitCI "api".toList, mopt (mchar (fun c => c = '_' || c = '-')),
         mlitCI "key".toList, mchar (fun c => c = '=' || c = ':'),
         mrepGe isSpaceC 0, mrepGe valA 1]

/-- Rules 4 and 5: `Bearer\s+[^\s&,;)}\]'"]+` and `Basic\s+...` (`/gi`). -/
def authSchemeStep (kw : String) : MStep :=
  mseqs [mlitCI kw.toList, mrepGe isSpaceC 1, mrepGe valA 1]

/-- Rule 8: `https?:\/\/[^\s,;)}\]'"]+` (`/gi`); its replacement is
`maskUrl(match)`. -/
def absUrlStep : MStep :=
  mseqs [mlitCI "http".toList, mopt (mchar (fun c => lowerC c = 's')),
         mlit "://".toList, mrepGe valB 1]

/-- Rule 9: `\/[^\s?]*\?[^\s,;)}\]'"]+` (`/g`); its replacement is
`maskUrl(match)`. -/
def relUrlStep : MStep :=
  mseqs [mchar (fun c => c = '/'),
         mrepGe (fun c => !(isSpaceC c) && c ≠ '?') 0,
         mchar (fun c => c = '?'), mrepGe valB 1]

/-- Rule 10: `\b\d{1,3}\.\d{1,3}\.\d{1,3}\.\d{1,3}\b` (`/g`). -/
def ipv4Step : MStep :=
  mseqs [mrep isDigitC 1 3, mchar (fun c => c = '.'), mrep isDigitC 1 3,
         mchar (fun c => c = '.'), mrep isDigitC 1 3,
         mchar (fun c => c = '.'), mrep isDigitC 1 3]

/-- A `[0-9a-fA-F]{1,4}:` group of the IPv6 rules. -/
def hexUnit : MStep := mseqs [mrep isHexC 1 4, mchar (fun c => c = ':')]

/-- Rule 11: `\b(?:[0-9a-fA-F]{1,4}:){7}[0-9a-fA-F]{1,4}\b` (`/g`). -/
def ipv6FullStep : MStep := mseqs [mtimes 7 hexUnit, mrep isHexC 1 4]

/-- Rule 12: `\b(?:[0-9a-fA-F]{1,4}:){1,6}:[0-9a-fA-F]{1,4}\b` (`/g`). -/
def ipv6P2Step : MStep :=
  mseqs [mrepStep hexUnit 1 6, mchar (fun c => c = ':'), mrep isHexC 1 4]

/-- Rule 13: `\b::(?:[0-9a-fA-F]{1,4}:)*[0-9a-fA-F]{1,4}\b` (`/g`).
The unbounded `*` is bounded by the remaining length (each group
consumes at least two characters). -/
def ipv6P3Step : MStep := fun st =>
  mseqs [mlit "::".toList, mrepStep hexUnit 0 st.2.length,
         mrep isHexC 1 4] st

/-- Rule 14: `\b[0-9a-fA-F]{1,4}::(?:[0-9a-fA-F]{1,4}:)*[0-9a-fA-F]{1,4}\b`
(`/g`). -/
def ipv6P4Step : MStep := fun st =>
  mseqs [mrep isHexC 1 4, mlit "::".toList, mrepStep hexUnit 0 st.2.length,
         mrep isHexC 1 4] st

/-- Email classes of rule 15
(`\b[A-Za-z0-9._%+-]+@[A-Za-z0-9.-]+\.[A-Z|a-z]{2,}\b`, `/g`); note the
source's last class literally contains `|`. -/
def emailLocalC (c : Char) : Bool :=
  isAlphaC c || isDigitC c || ['.', '_', '%', '+', '-'].contains c

def emailDomC (c : Char) : Bool :=
  isAlphaC c || isDigitC c || c = '.' || c = '-'

def emailTldC (c : Char) : Bool := isAlphaC c || c = '|'

def emailStep : MStep :=
  mseqs [mrepGe emailLocalC 1, mchar (fun c => c = '@'),
         mrepGe emailDomC 1, mchar (fun c => c = '.'), mrepGe emailTldC 2]

/-- Rule 16:
`\b(?:\+?1[-.\s]?)?\(?[0-9]{3}\)?[-.\s]?[0-9]{3}[-.\s]?[0-9]{4}\b`
(`/g`). -/
def phoneSep : MStep := mchar (fun c => c = '-' || c = '.' || isSpaceC c)

def phoneStep : MStep :=
  mseqs [mopt (mseqs [mopt (mchar (fun c => c = '+')),
                      mchar (fun c => c = '1'), mopt phoneSep]),
         mopt (mchar (fun c => c = '(')), mexact isDigitC 3,
         mopt (mchar (fun c => c = ')')), mopt phoneSep,
         mexact isDigitC 3, mopt phoneSep, mexact isDigitC 4]

/-- Rule 17, the payment-card alternation:
`\b(?:4[0-9]{12}(?:[0-9]{3})?|5[1-5][0-9]{14}|3[47][0-9]{13}|3[0-9]{13}|6(?:011|5[0-9]{2})[0-9]{12})\b`
(`/g`). -/
def cardStep : MStep :=
  malt (mseqs [mchar (fun c => c = '4'), mexact isDigitC 12,
               mopt (mexact isDigitC 3)])
    (malt (mseqs [mchar (fun c => c = '5'),
                  mchar (fun c => decide ('1' ≤ c ∧ c ≤ '5')),
                  mexact isDigitC 14])
      (malt (mseqs [mchar (fun c => c = '3'),
                    mchar (fun c => c = '4' || c = '7'), mexact isDigitC 13])
        (malt (mseqs [mchar (fun c => c = '3'), mexact isDigitC 13])
          (mseqs [mchar (fun c => c = '6'),
                  malt (mlit "011".toList)
                    (mseqs [mchar (fun c => c = '5'), mexact isDigitC 2]),
                  mexact isDigitC 12]))))

/-- Rule 18: `\b\d{3}-\d{2}-\d{4}\b` (`/g`). -/
def ssnStep : MStep :=
  mseqs [mexact isDigitC 3, mchar (fun c => c = '-'), mexact isDigitC 2,
         mchar (fun c => c = '-'), mexact isDigitC 4]

/-- Rules 19–23: `kw[=:][^\s;,)}\]]+` (`/gi`) for `server`, `database`,
`user`, `uid`, `pwd`. -/
def kvStepC (kw : String) : MStep :=
  mseqs [mlitCI kw.toList, mchar (fun c => c = '=' || c = ':'),
         mrepGe valC 1]

/-- Path-segment class of rule 24: `[^\\/:*?"<>|\r\n]`. -/
def winPathC (c : Char) : Bool :=
  !(['\\', '/', ':', '*', '?', '\x22', '<', '>', '|', '\r', '\n'].contains c)

/-- Rule 24: `[A-Za-z]:\\(?:[^\\/:*?"<>|\r\n]+\\)*[^\\/:*?"<>|\r\n]*`
(`/g`). -/
def winPathStep : MStep := fun st =>
  mseqs [mchar isAlphaC, mchar (fun c => c = ':'), mchar (fun c => c = '\\'),
         mrepStep (mseqs [mrepGe winPathC 1, mchar (fun c => c = '\\')])
           0 st.2.length,
         mrepGe winPathC 0] st

/-- Rule 25: `\/(?:home|Users)\/[^\s,;)}\]]+` (`/g`, case-sensitive). -/
def unixPathStep : MStep :=
  mseqs [mchar (fun c => c = '/'),
         malt (mlit "home".toList) (mlit "Users".toList),
         mchar (fun c => c = '/'), mrepGe valC 1]

/-- Rule 26:
`\b[0-9a-f]{8}-[0-9a-f]{4}-[1-5][0-9a-f]{3}-[89ab][0-9a-f]{3}-[0-9a-f]{12}\b`
(`/gi`; the `/i` flag makes the hex classes accept capitals). -/
def uuidStep : MStep :=
  mseqs [mexact isHexC 8, mchar (fun c => c = '-'), mexact isHexC 4,
         mchar (fun c => c = '-'), mchar (fun c => decide ('1' ≤ c ∧ c ≤ '5')),
         mexact isHexC 3, mchar (fun c => c = '-'),
         mchar (fun c => ['8', '9', 'a', 'b', 'A', 'B'].contains c),
         mexact isHexC 3, mchar (fun c => c = '-'), mexact isHexC 12]

/-- Class of rule 27: `[A-Za-z0-9+/]`. -/
def hashC (c : Char) : Bool := isAlphaC c || isDigitC c || c = '+' || c = '/'

/-- Rule 27: `\b[A-Za-z0-9+/]{32,}={0,2}\b` (`/g`). -/
def hashStep : MStep := mseqs [mrepGe hashC 32, mrep (fun c => c = '=') 0 2]

/-- Rule 27's replacement callback: mask only when the match holds an
upper-case letter, a lower-case letter and a digit. -/
def hashRepl (m : List Char) : List Char :=
  if m.length ≥ 32 && m.any (fun c => decide ('A' ≤ c ∧ c ≤ 'Z')) &&
      m.any (fun c => decide ('a' ≤ c ∧ c ≤ 'z')) && m.any isDigitC then
    "***HASH_MASKED***".toList
  else m

/-- The full `maskSensitiveData` chain, in source order. -/
def maskTextL (s0 : List Char) : List Char :=
  let s := jsReplaceConst (mkM false false (kvStepA "password"))
    ("password=".toList ++ mMasked) s0
  let s := jsReplaceConst (mkM false false (kvStepA "token"))
    ("token=".toList ++ mMasked) s
  let s := jsReplaceConst (mkM false false apiKeyStep)
    ("api_key=".toList ++ mMasked) s
  let s := jsReplaceConst (mkM false false (authSchemeStep "bearer"))
    ("Bearer ".toList ++ mMasked) s
  let s := jsReplaceConst (mkM false false (authSchemeStep "basic"))
    ("Basic ".toList ++ mMasked) s
  let s := jsReplaceConst (mkM false false (kvStepA "jwt"))
    ("jwt=".toList ++ mMasked) s
  let s := jsReplaceConst (mkM false false (kvStepA "session"))
    ("session=".toList ++ mMasked) s
  let s := jsReplace (mkM false false absUrlStep) maskUrlL s
  let s := jsReplace (mkM false false relUrlStep) maskUrlL s
  let s := jsReplaceConst (mkM true true ipv4Step) "***IP_MASKED***".toList s
  let s := jsReplaceConst (mkM true true ipv6FullStep)
    "***IPv6_MASKED***".toList s
  let s := jsReplaceConst (mkM true true ipv6P2Step)
    "***IPv6_MASKED***".toList s
  let s := jsReplaceConst (mkM true true ipv6P3Step)
    "***IPv6_MASKED***".toList s
  let s := jsReplaceConst (mkM true true ipv6P4Step)
    "***IPv6_MASKED***".toList s
  let s := jsReplaceConst (mkM true true emailStep)
    "***EMAIL_MASKED***".toList s
  let s := jsReplaceConst (mkM true true phoneStep)
    "***PHONE_MASKED***".toList s
  let s := jsReplaceConst (mkM true true cardStep) "***CARD_MASKED***".toList s
  let s := jsReplaceConst (mkM true true ssnStep) "***SSN_MASKED***".toList s
  let s := jsReplaceConst (mkM false false (kvStepC "server"))
    ("server=".toList ++ mMasked) s
  let s := jsReplaceConst (mkM false false (kvStepC "database"))
    ("database=".toList ++ mMasked) s
  let s := jsReplaceConst (mkM false false (kvStepC "user"))
    ("user=".toList ++ mMasked) s
  let s := jsReplaceConst (mkM false false (kvStepC "uid"))
    ("uid=".toList ++ mMasked) s
  let s := jsReplaceConst (mkM false false (kvStepC "pwd"))
    ("pwd=".toList ++ mMasked) s
  let s := jsReplaceConst (mkM false false winPathStep)
    "***PATH_MASKED***".toList s
  let s := jsReplaceConst (mkM false false unixPathStep)
    "***PATH_MASKED***".toList s
  let s := jsReplaceConst (mkM true true uuidStep) "***UUID_MASKED***".toList s
  jsReplace (mkM true true hashStep) hashRepl s

/-- `maskSensitiveData` of the source (the spec's `maskText`). -/
def maskSensitiveData (s : String) : String := String.mk (maskTextL s.toList)

/-! ## The LogEntry record (src/src/types.ts)

`level` is kept as a `String`: in the TypeScript source it is typed as
the union `'ERROR' | 'WARN' | 'INFO' | 'DEBUG'` but populated at runtime
through an unchecked cast from the matched text, so the closure of the
field over those four strings is a theorem (claim C6), not a typing
assumption. -/

structure LogEntry where
  id : String
  timestamp : String
  level : String
  message : String
  component : Option String
  url : Option String
  responseCode : Option String
  headers : Option (List (String × String))
  deriving Repr, DecidableEq

/-! ## Timestamp extraction (src/unnamed/part_002, lines 448–467) -/

/-- Pattern (a):
`\d{4}-\d{2}-\d{2}[T\s]\d{2}:\d{2}:\d{2}(?:\.\d{3})?(?:Z|[+-]\d{2}:\d{2})?`. -/
def tsIsoStep : MStep :=
  mseqs [mexact isDigitC 4, mchar (fun c => c = '-'), mexact isDigitC 2,
         mchar (fun c => c = '-'), mexact isDigitC 2,
         mchar (fun c => c = 'T' || isSpaceC c),
         mexact isDigitC 2, mchar (fun c => c = ':'), mexact isDigitC 2,
         mchar (fun c => c = ':'), mexact isDigitC 2,
         mopt (mseqs [mchar (fun c => c = '.'), mexact isDigitC 3]),
         mopt (malt (mlit "Z".toList)
           (mseqs [mchar (fun c => c = '+' || c = '-'), mexact isDigitC 2,
                   mchar (fun c => c = ':'), mexact isDigitC 2]))]

/-- Pattern (b): `\d{2}\/\d{2}\/\d{4}\s+\d{2}:\d{2}:\d{2}`. -/
def tsSlashStep : MStep :=
  mseqs [mexact isDigitC 2, mchar (fun c => c = '/'), mexact isDigitC 2,
         mchar (fun c => c = '/'), mexact isDigitC 4, mrepGe isSpaceC 1,
         mexact isDigitC 2, mchar (fun c => c = ':'), mexact isDigitC 2,
         mchar (fun c => c = ':'), mexact isDigitC 2]

/-- Pattern (c): `\w{3}\s+\d{1,2}\s+\d{2}:\d{2}:\d{2}`. -/
def tsSyslogStep : MStep :=
  mseqs [mexact isWordC 3, mrepGe isSpaceC 1, mrep isDigitC 1 2,
         mrepGe isSpaceC 1, mexact isDigitC 2, mchar (fun c => c = ':'),
         mexact isDigitC 2, mchar (fun c => c = ':'), mexact isDigitC 2]

/-- Pattern (d): `\d{13}` (millisecond Unix epoch). -/
def tsEpochStep : MStep := mexact isDigitC 13

/-- First pattern family that matches anywhere in the line, in the fixed
priority order of the `timestampPatterns` array. -/
def findTsMatch (s : List Char) : Option (List Char) :=
  match jsSearch (mkM false false tsIsoStep) s with
  | some m => some m
  | none =>
    match jsSearch (mkM false false tsSlashStep) s with
    | some m => some m
    | none =>
      match jsSearch (mkM false false tsSyslogStep) s with
      | some m => some m
      | none => jsSearch (mkM false false tsEpochStep) s

/-- Modelled from the spec: §4.1 step 2(d) — the captured 13 digits are
"parsed as an integer and converted to an ISO-8601 instant"; the
conversion itself is the platform's `new Date(ms).toISOString()`, not
repository code.  Standard Gregorian civil-from-days conversion. -/
def civilFromDays (z : Nat) : Nat × Nat × Nat :=
  let z := z + 719468
  let era := z / 146097
  let doe := z % 146097
  let yoe := (doe - doe / 1460 + doe / 36524 - doe / 146096) / 365
  let y := yoe + era * 400
  let doy := doe - (365 * yoe + yoe / 4 - yoe / 100)
  let mp := (5 * doy + 2) / 153
  let d := doy - (153 * mp + 2) / 5 + 1
  let m := if mp < 10 then mp + 3 else mp - 9
  (if m ≤ 2 then y + 1 else y, m, d)

def padNum (w n : Nat) : String :=
  let r := Nat.repr n
  String.mk (List.replicate (w - r.length) '0') ++ r

def epochMillisToIso (ms : Nat) : String :=
  let days := ms / 86400000
  let rem := ms % 86400000
  let ymd := civilFromDays days
  padNum 4 ymd.1 ++ "-" ++ padNum 2 ymd.2.1 ++ "-" ++ padNum 2 ymd.2.2 ++
    "T" ++ padNum 2 (rem / 3600000) ++ ":" ++
    padNum 2 (rem % 3600000 / 60000) ++ ":" ++
    padNum 2 (rem % 60000 / 1000) ++ "." ++ padNum 3 (rem % 1000) ++ "Z"

def digitsToNat (s : List Char) : Nat :=
  s.foldl (fun a c => a * 10 + (c.toNat - 48)) 0

/-- The timestamp of one line: the first matching pattern's text, with
the `/^\d{13}$/` epoch test and conversion of the source; `now` models
`new Date().toISOString()`, the fallback when nothing matches. -/
def extractTimestamp (now : String) (s : List Char) : String :=
  match findTsMatch s with
  | some m =>
    if m.length = 13 ∧ m.all isDigitC then epochMillisToIso (digitsToNat m)
    else String.mk m
  | none => now

/-! ## Level detection (src/unnamed/part_002, lines 469–488) -/

/-- The alternation `\b(TRACE|DEBUG|INFO|WARN|WARNING|ERROR|FATAL|CRITICAL)\b`
(`/i`), in source order. -/
def levelKeywords : List String :=
  ["TRACE", "DEBUG", "INFO", "WARN", "WARNING", "ERROR", "FATAL", "CRITICAL"]

/-- Does `kw` match case-insensitively at the current position, with word
boundaries on both sides? -/
def kwWordAt (prev : Option Char) (s : List Char) (kw : String) : Bool :=
  boundaryB prev s.head? && startsWithCI kw.toList s &&
    boundaryB (s.take kw.toList.length).getLast? (s.drop kw.toList.length).head?

def findLevelGo : Option Char → List Char → Option String
  | _, [] => none
  | prev, c :: rest =>
    match levelKeywords.find? (kwWordAt prev (c :: rest)) with
    | some kw => some kw
    | none => findLevelGo (some c) rest

/-- `line.match(...)` for the level regex; the returned keyword is the
canonical upper-case form (the source upper-cases the matched text). -/
def findLevelKeyword (s : List Char) : Option String := findLevelGo none s

/-- The `switch (matchedLevel)` normalization table of the source. -/
def normLevel (kw : String) : String :=
  if kw = "WARNING" then "WARN"
  else if kw = "FATAL" ∨ kw = "CRITICAL" then "ERROR"
  else if kw = "TRACE" then "DEBUG"
  else kw

/-! ## URL detection (src/unnamed/part_002, lines 490–493) -/

/-- `https?:\/\/[^\s,;)}\]]+` (case-sensitive here, unlike the masker's
rule 8). -/
def pUrlAbsStep : MStep :=
  mseqs [mlit "http".toList, mopt (mchar (fun c => c = 's')),
         mlit "://".toList, mrepGe valC 1]

/-- The class `[a-zA-Z0-9\/\-_.~!*'();:@&=+$,?#[\]]` of the relative-URL
pattern. -/
def pUrlPathC (c : Char) : Bool :=
  isAlphaC c || isDigitC c ||
    ['/', '-', '_', '.', '~', '!', '*', '\x27', '(', ')', ';', ':', '@',
     '&', '=', '+', '$', ',', '?', '#', '[', ']'].contains c

/-- `\/[a-zA-Z0-9\/\-_.~!*'();:@&=+$,?#[\]]*`. -/
def pUrlRelStep : MStep :=
  mseqs [mchar (fun c => c = '/'), mrepGe pUrlPathC 0]

/-- `\w+:\/\/[^\s,;)}\]]+`. -/
def pUrlSchemeStep : MStep :=
  mseqs [mrepGe isWordC 1, mlit "://".toList, mrepGe valC 1]

def findUrl (s : List Char) : Option String :=
  match jsSearch (mkM false false pUrlAbsStep) s with
  | some m => some (String.mk m)
  | none =>
    match jsSearch (mkM false false pUrlRelStep) s with
    | some m => some (String.mk m)
    | none => (jsSearch (mkM false false pUrlSchemeStep) s).map String.mk

/-! ## Response-code detection (src/unnamed/part_002, lines 495–498) -/

/-- `\b([1-5]\d{2})\b`. -/
def rcBareStep : MStep :=
  mseqs [mchar (fun c => decide ('1' ≤ c ∧ c ≤ '5')), mexact isDigitC 2]

/-- `status[=:\s]+([1-5]\d{2})` and `code[=:\s]+([1-5]\d{2})` (`/i`). -/
def rcKwStep (kw : String) : MStep :=
  mseqs [mlitCI kw.toList,
         mrepGe (fun c => c = '=' || c = ':' || isSpaceC c) 1,
         mchar (fun c => decide ('1' ≤ c ∧ c ≤ '5')), mexact isDigitC 2]

def findResponseCode (s : List Char) : Option String :=
  match jsSearch (mkM true true rcBareStep) s with
  | some m => some (String.mk m)
  | none =>
    match jsSearch (mkM false false (rcKwStep "status")) s with
    | some m => some (String.mk (m.drop (m.length - 3)))
    | none =>
      (jsSearch (mkM false false (rcKwStep "code")) s).map
        (fun m => String.mk (m.drop (m.length - 3)))

/-! ## Component extraction (src/unnamed/part_002, lines 500–516) -/

/-- `\[([^\]]+)\]`. -/
def compBracketStep : MStep :=
  mseqs [mchar (fun c => c = '['), mrepGe (fun c => c ≠ ']') 1,
         mchar (fun c => c = ']')]

/-- `(\w+Service|\w+Controller|\w+Module|\w+Handler|\w+Provider)`. -/
def compSuffixStep : MStep :=
  malt (mseqs [mrepGe isWordC 1, mlit "Service".toList])
    (malt (mseqs [mrepGe isWordC 1, mlit "Controller".toList])
      (malt (mseqs [mrepGe isWordC 1, mlit "Module".toList])
        (malt (mseqs [mrepGe isWordC 1, mlit "Handler".toList])
          (mseqs [mrepGe isWordC 1, mlit "Provider".toList]))))

/-- `logger[=:\s]+(\w+)` / `class[=:\s]+(\w+)` (`/i`); the capture is the
trailing `\w+` run of the match. -/
def kwWordStep (kw : String) : MStep :=
  mseqs [mlitCI kw.toList,
         mrepGe (fun c => c = '=' || c = ':' || isSpaceC c) 1,
         mrepGe isWordC 1]

def takeRightWhile (p : Char → Bool) (s : List Char) : List Char :=
  (s.reverse.takeWhile p).reverse

/-- `^(\w+):` — a leading word at the line start followed by a colon. -/
def compLeadingWord (s : List Char) : Option String :=
  let k := takeRun isWordC s
  if k = 0 then none
  else
    match (s.drop k).head? with
    | some c => if c = ':' then some (String.mk (s.take k)) else none
    | none => none

def findComponent (s : List Char) : Option String :=
  match jsSearch (mkM false false compBracketStep) s with
  | some m => some (String.mk (m.drop 1).dropLast)
  | none =>
    match jsSearch (mkM false false compSuffixStep) s with
    | some m => some (String.mk m)
    | none =>
      match jsSearch (mkM false false (kwWordStep "logger")) s with
      | some m => some (String.mk (takeRightWhile isWordC m))
      | none =>
        match jsSearch (mkM false false (kwWordStep "class")) s with
        | some m => some (String.mk (takeRightWhile isWordC m))
        | none => compLeadingWord s

/-! ## Header extraction (src/unnamed/part_002, lines 518–535) -/

/-- `headers?\s*[:=]\s*\{([^}]+)\}` (`/i`). -/
def headerFragStep : MStep :=
  mseqs [mlitCI "header".toList, mopt (mchar (fun c => lowerC c = 's')),
         mrepGe isSpaceC 0, mchar (fun c => c = ':' || c = '='),
         mrepGe isSpaceC 0, mchar (fun c => c = '\x7b'),
         mrepGe (fun c => c ≠ '\x7d') 1, mchar (fun c => c = '\x7d')]

/-- `s.trim().replace(/['"]/g, '')` applied to each pair segment. -/
def cleanSeg (s : List Char) : List Char :=
  (jsTrimL s).filter (fun c => c ≠ '\x27' && c ≠ '\x22')

/-- One `pair.split(':')` step: destructuring `[key, value]` takes the
first two segments; the pair is kept only when both are non-empty. -/
def parseHeaderPair (pair : List Char) : Option (String × String) :=
  match (splitOnC ':' pair).map cleanSeg with
  | k :: v :: _ =>
    if k ≠ [] ∧ v ≠ [] then some (String.mk k, String.mk v) else none
  | _ => none

/-- JS object insertion: an existing key keeps its position and gets the
new value, a new key is appended. -/
def recordSet : List (String × String) → String → String →
    List (String × String)
  | [], k, v => [(k, v)]
  | (k0, v0) :: rest, k, v =>
    if k0 = k then (k0, v) :: rest else (k0, v0) :: recordSet rest k v

def headerPairsOf (inner : List Char) : List (String × String) :=
  (splitOnC ',' inner).foldl
    (fun acc pair =>
      match parseHeaderPair pair with
      | some kv => recordSet acc kv.1 kv.2
      | none => acc)
    []

def findHeaders (s : List Char) : Option (List (String × String)) :=
  match jsSearch (mkM false false headerFragStep) s with
  | none => none
  | some m =>
    let inner := (m.drop (takeRun (fun c => c ≠ '\x7b') m + 1)).dropLast
    let hs := headerPairsOf inner
    if hs = [] then none else some hs

/-! ## `parseLogText` (src/unnamed/part_002, lines 440–571) -/

/-- One iteration of the `lines.forEach` body.  `index` is the index
within the **filtered** line list (the source filters before iterating);
`now` models `new Date().toISOString()`.  The `try`/`catch` fallback of
the source is unreachable in this total embedding (no extraction step can
throw), so the `try` body alone is the per-line semantics. -/
def parseLine (now : String) (index : Nat) (line : String) : LogEntry :=
  let L := line.toList
  { id := "log-" ++ Nat.repr (index + 1)
    timestamp := extractTimestamp now L
    level :=
      match findLevelKeyword L with
      | some kw => normLevel kw
      | none => "INFO"
    message := String.mk (jsTrimL L)
    url := findUrl L
    responseCode := findResponseCode L
    component := findComponent L
    headers := findHeaders L }

/-- `text.split('\n').filter(line => line.trim())`. -/
def keptLines (text : String) : List String :=
  ((splitOnC '\n' text.toList).map String.mk).filter
    (fun l => jsTrimL l.toList ≠ [])

def buildLogs (now : String) : Nat → List String → List LogEntry
  | _, [] => []
  | i, l :: ls => parseLine now i l :: buildLogs now (i + 1) ls

/-- The batch parser (the spec's `parseBatch`). -/
def parseLogText (now : String) (text : String) : List LogEntry :=
  buildLogs now 0 (keptLines text)

/-! ## `maskHeaders` and the per-record masking of `handleMaskLogs`
(src/unnamed/part_000, lines 254–264 and 272–292) -/

/-- Mask values of header keys containing `authorization`, `token` or
`key` (case-insensitive); other entries pass through; the input mapping
is not mutated. -/
def maskHeaders (hs : List (String × String)) : List (String × String) :=
  hs.map (fun kv =>
    let lk := kv.1.toList.map lowerC
    if containsSub lk "authorization".toList ||
        containsSub lk "token".toList || containsSub lk "key".toList then
      (kv.1, "***MASKED***")
    else kv)

/-- The per-record masking of `handleMaskLogs`:
`{...log, message: maskSensitiveData(log.message), url: maskUrl(log.url
|| ''), headers: maskHeaders(log.headers || {})}`. -/
def maskLogEntry (e : LogEntry) : LogEntry :=
  { e with
    message := maskSensitiveData e.message
    url := some (maskUrl (e.url.getD ""))
    headers := some (maskHeaders (e.headers.getD [])) }

/-! ## Helper lemmas -/

theorem buildLogs_length (now : String) : ∀ (i : Nat) (ls : List String),
    (buildLogs now i ls).length = ls.length := by
  intro i ls
  induction ls generalizing i with
  | nil => rfl
  | cons l ls ih => simp [buildLogs, ih]

theorem buildLogs_message (now : String) : ∀ (i : Nat) (ls : List String),
    (buildLogs now i ls).map (fun e => e.message) =
      ls.map (fun l => String.mk (jsTrimL l.toList)) := by
  intro i ls
  induction ls generalizing i with
  | nil => rfl
  | cons l ls ih => simp [buildLogs, ih, parseLine]

theorem buildLogs_id (now : String) : ∀ (ls : List String) (k i : Nat)
    (h : i < (buildLogs now k ls).length),
    ((buildLogs now k ls).get ⟨i, h⟩).id = "log-" ++ Nat.repr (k + i + 1) := by
  intro ls
  induction ls with
  | nil => intro k i h; simp [buildLogs] at h
  | cons l ls ih =>
    intro k i h
    cases i with
    | zero => simp [buildLogs, parseLine]
    | succ j =>
      have hj : j < (buildLogs now (k + 1) ls).length := by
        have := h; simp [buildLogs] at this; omega
      have hrec := ih (k + 1) j hj
      have harg : k + 1 + j + 1 = k + (j + 1) + 1 := by omega
      calc ((buildLogs now k (l :: ls)).get ⟨j + 1, h⟩).id
          = ((buildLogs now (k + 1) ls).get ⟨j, hj⟩).id := rfl
        _ = "log-" ++ Nat.repr (k + 1 + j + 1) := hrec
        _ = "log-" ++ Nat.repr (k + (j + 1) + 1) := by rw [harg]

/-- Every field of a parsed record except `timestamp`. -/
def stripTimestamp (e : LogEntry) :
    String × String × String × Option String × Option String ×
      Option String × Option (List (String × String)) :=
  (e.id, e.level, e.message, e.component, e.url, e.responseCode, e.headers)

theorem parseLine_stripTimestamp (n1 n2 : String) (i : Nat) (l : String) :
    stripTimestamp (parseLine n1 i l) = stripTimestamp (parseLine n2 i l) :=
  rfl

theorem buildLogs_stripTimestamp (n1 n2 : String) : ∀ (i : Nat)
    (ls : List String),
    (buildLogs n1 i ls).map stripTimestamp =
      (buildLogs n2 i ls).map stripTimestamp := by
  intro i ls
  induction ls generalizing i with
  | nil => rfl
  | cons l ls ih => simp [buildLogs, ih, parseLine_stripTimestamp n1 n2 i l]

theorem findLevelGo_mem (kw : String) : ∀ (s : List Char) (prev : Option Char),
    findLevelGo prev s = some kw → kw ∈ levelKeywords := by
  intro s
  induction s with
  | nil => intro prev h; simp [findLevelGo] at h
  | cons c rest ih =>
    intro prev h
    rw [findLevelGo] at h
    cases hf : levelKeywords.find? (kwWordAt prev (c :: rest)) with
    | none => rw [hf] at h; exact ih (some c) h
    | some k =>
      rw [hf] at h
      cases h
      exact List.mem_of_find?_eq_some hf

theorem splitOnC_no_sep (sep : Char) : ∀ (s : List Char),
    (∀ x ∈ s, x ≠ sep) → splitOnC sep s = [s] := by
  intro s
  induction s with
  | nil => intro; rfl
  | cons c r ih =>
    intro h
    have hc : c ≠ sep := h c (by simp)
    have hr := ih (fun x hx => h x (by simp [hx]))
    simp [splitOnC, hc, hr]

theorem splitOnC_append (sep : Char) : ∀ (a rest : List Char),
    (∀ x ∈ a, x ≠ sep) →
    splitOnC sep (a ++ sep :: rest) = a :: splitOnC sep rest := by
  intro a
  induction a with
  | nil => intro rest _; simp [splitOnC]
  | cons c a ih =>
    intro rest h
    have hc : c ≠ sep := h c (by simp)
    have hr := ih rest (fun x hx => h x (by simp [hx]))
    simp [splitOnC, hc, hr]

/-- Evaluation helper: the credential example of the spec. -/
theorem maskCred_eval :
    maskSensitiveData "password=secret123" = "password=***MASKED***" := by
  decide

/-- Evaluation helper: first masking pass over a URL with an IPv4 host. -/
theorem maskIpUrl_eval1 :
    maskSensitiveData "http://10.0.0.5/x" = "http://***IP_MASKED***/x" := by
  decide

/-- Evaluation helper: second masking pass — the URL rule re-parses the
URL and the host (now holding the sentinel) is lowercased by
serialization. -/
theorem maskIpUrl_eval2 :
    maskSensitiveData "http://***IP_MASKED***/x" =
      "http://***ip_masked***/x" := by
  decide

/-! ## Claim theorems -/

/-- C2: the spec claims `maskText` is idempotent.  Counterexample: the
first pass over `http://10.0.0.5/x` masks the IPv4 host to
`***IP_MASKED***` (the IPv4 rule runs after the URL rule); the second
pass re-parses `http://***IP_MASKED***/x` as a URL and host
serialization lowercases the sentinel, so the two passes disagree. -/
theorem C2_counterexample :
    maskSensitiveData (maskSensitiveData "http://10.0.0.5/x") ≠
      maskSensitiveData "http://10.0.0.5/x" := by
  rw [maskIpUrl_eval1, maskIpUrl_eval2]
  decide

/-- The sentinel tokens of §6 of the spec. -/
def sentinelTokens : List String :=
  ["***MASKED***", "***IP_MASKED***", "***IPv6_MASKED***",
   "***EMAIL_MASKED***", "***PHONE_MASKED***", "***CARD_MASKED***",
   "***SSN_MASKED***", "***PATH_MASKED***", "***UUID_MASKED***",
   "***HASH_MASKED***"]

/-- C2 (amended): re-masking is a fixed point per sentinel — every
sentinel token is left unchanged by `maskSensitiveData` — and re-masking
an already-masked credential string is a no-op; but full idempotence
fails when masking injects sentinel text into a re-parseable URL (see
the counterexample). -/
theorem C2_amended :
    (∀ t ∈ sentinelTokens, maskSensitiveData t = t) ∧
    maskSensitiveData (maskSensitiveData "password=secret123") =
      maskSensitiveData "password=secret123" := by
  constructor
  · decide
  · rw [maskCred_eval]
    decide

/-- C2 (amended) witness at the `***MASKED***` sentinel. -/
theorem C2_amended_witness :
    maskSensitiveData "***MASKED***" = "***MASKED***" :=
  C2_amended.1 "***MASKED***" (by decide)

/-- C3: the batch parser yields exactly one record per input line that
is non-blank after trimming (`keptLines` is `text.split('\n')` filtered
to such lines): the record count equals the kept-line count, and the
`i`-th record's message is the `i`-th kept line trimmed — so every
non-blank line yields exactly one record and blank lines yield none. -/
theorem C3_line_count : ∀ (now text : String),
    (parseLogText now text).length = (keptLines text).length ∧
    (parseLogText now text).map (fun e => e.message) =
      (keptLines text).map (fun l => String.mk (jsTrimL l.toList)) := by
  intro now text
  exact ⟨buildLogs_length now 0 (keptLines text),
         buildLogs_message now 0 (keptLines text)⟩

/-- C4: the spec claims `parseBatch` is deterministic including the
timestamp.  Counterexample: a line without any timestamp pattern takes
the parse-time clock reading (`new Date().toISOString()`, the `now`
parameter of the embedding) as its timestamp, so two invocations at
different instants differ. -/
theorem C4_counterexample :
    parseLogText "2024-01-01T00:00:00.000Z" "hello" ≠
      parseLogText "2025-01-01T00:00:00.000Z" "hello" := by
  decide

/-- C4 (amended): the parse is deterministic in everything except the
clock fallback: all fields other than `timestamp` depend only on the
input text, and the timestamp too is clock-independent on every line
where some timestamp pattern matches. -/
theorem C4_amended : ∀ (n1 n2 text : String),
    (parseLogText n1 text).map stripTimestamp =
      (parseLogText n2 text).map stripTimestamp ∧
    ∀ (L : List Char), findTsMatch L ≠ none →
      extractTimestamp n1 L = extractTimestamp n2 L := by
  intro n1 n2 text
  refine ⟨buildLogs_stripTimestamp n1 n2 0 (keptLines text), ?_⟩
  intro L h
  cases hm : findTsMatch L with
  | none => exact absurd hm h
  | some m => simp [extractTimestamp, hm]

/-- C4 (amended) witness: a line with a slash timestamp gets the same
timestamp under two different clock readings. -/
theorem C4_amended_witness :
    extractTimestamp "A" "12/31/2024 10:00:00".toList =
      extractTimestamp "B" "12/31/2024 10:00:00".toList :=
  (C4_amended "A" "B" "").2 "12/31/2024 10:00:00".toList (by decide)

/-- C5: the masking step preserves `id`, `timestamp`, `level` and
`component` of every record; only `message`, `url` and `headers` are
rewritten. -/
theorem C5_mask_frame : ∀ (e : LogEntry),
    (maskLogEntry e).id = e.id ∧ (maskLogEntry e).timestamp = e.timestamp ∧
    (maskLogEntry e).level = e.level ∧
    (maskLogEntry e).component = e.component := by
  intro e
  cases e
  exact ⟨rfl, rfl, rfl, rfl⟩

/-- C6: the level of a parsed line is the first case-insensitive
word-boundary occurrence of one of the eight level keywords, sent
through the fixed normalization table (`WARNING→WARN`, `FATAL→ERROR`,
`CRITICAL→ERROR`, `TRACE→DEBUG`, identity on the rest), `INFO` when no
keyword occurs; consequently the level is always one of the four
enumerated values. -/
theorem C6_level_detection : ∀ (now : String) (i : Nat) (line : String),
    (parseLine now i line).level =
      (match findLevelKeyword line.toList with
       | some kw => normLevel kw
       | none => "INFO") ∧
    (parseLine now i line).level ∈ ["ERROR", "WARN", "INFO", "DEBUG"] := by
  intro now i line
  have hL : (parseLine now i line).level =
      (match findLevelKeyword line.toList with
       | some kw => normLevel kw
       | none => "INFO") := rfl
  refine ⟨hL, ?_⟩
  rw [hL]
  cases hk : findLevelKeyword line.toList with
  | none => decide
  | some kw =>
    have hmem := findLevelGo_mem kw line.toList none hk
    simp only [levelKeywords, List.mem_cons, List.not_mem_nil, or_false] at hmem
    rcases hmem with rfl | rfl | rfl | rfl | rfl | rfl | rfl | rfl <;> decide

/-- C7: the spec claims the id encodes the line's original 1-based
position in the input even when blank lines precede it.  Counterexample:
for the input `"\nhello"` the surviving line `hello` sits at original
position 2 yet its record id is `log-1` — the index is assigned within
the filtered line list. -/
theorem C7_counterexample :
    (parseLogText "T" "\nhello").map (fun e => (e.id, e.message)) =
      [("log-1", "hello")] ∧ ("log-1" : String) ≠ "log-2" := by
  refine ⟨by decide, by decide⟩

/-- C7 (amended): the id of the `i`-th produced record is
`log-(i+1)` — the 1-based position within the filtered (non-blank) line
sequence of this parse invocation. -/
theorem C7_amended : ∀ (now text : String) (i : Nat)
    (h : i < (parseLogText now text).length),
    ((parseLogText now text).get ⟨i, h⟩).id = "log-" ++ Nat.repr (i + 1) := by
  intro now text i h
  have := buildLogs_id now (keptLines text) 0 i h
  simpa using this

/-- C7 (amended) witness on a two-line input. -/
theorem C7_amended_witness :
    ((parseLogText "T" "a\nb").get ⟨1, by decide⟩).id =
      "log-" ++ Nat.repr 2 :=
  C7_amended "T" "a\nb" 1 (by decide)

/-- C8: the spec claims a header pair is split on the **first** colon
with the whole remainder as value.  Counterexample: for the line
`headers: {Auth: Bearer a:b}` the parsed value is `Bearer a` — the text
between the first and second colon — not `Bearer a:b`
(`pair.split(':')` destructures only the first two segments). -/
theorem C8_counterexample :
    (parseLogText "T" "headers: \x7bAuth: Bearer a:b\x7d").map
        (fun e => e.headers) = [some [("Auth", "Bearer a")]] ∧
    ("Bearer a" : String) ≠ "Bearer a:b" := by
  refine ⟨by decide, by decide⟩

/-- C8 (amended): for a pair containing two colons, the parsed key/value
are the cleaned first and second segments; everything after the second
colon is dropped, and the pair is kept only when both parts are
non-empty. -/
theorem C8_amended : ∀ (a b c : List Char),
    (∀ x ∈ a, x ≠ ':') → (∀ x ∈ b, x ≠ ':') → (∀ x ∈ c, x ≠ ':') →
    parseHeaderPair (a ++ (':' :: (b ++ (':' :: c)))) =
      if cleanSeg a ≠ [] ∧ cleanSeg b ≠ [] then
        some (String.mk (cleanSeg a), String.mk (cleanSeg b))
      else none := by
  intro a b c ha hb hc
  have h1 : splitOnC ':' (a ++ (':' :: (b ++ (':' :: c)))) = a :: b :: [c] := by
    rw [splitOnC_append ':' a (b ++ (':' :: c)) ha,
        splitOnC_append ':' b c hb, splitOnC_no_sep ':' c hc]
  unfold parseHeaderPair
  rw [h1]
  simp only [List.map_cons, List.map_nil]

/-- C8 (amended) witness at the counterexample's pair. -/
theorem C8_amended_witness :
    parseHeaderPair ("Auth".toList ++ (':' :: (" Bearer a".toList ++
        (':' :: "b".toList)))) =
      if cleanSeg "Auth".toList ≠ [] ∧ cleanSeg " Bearer a".toList ≠ [] then
        some (String.mk (cleanSeg "Auth".toList),
              String.mk (cleanSeg " Bearer a".toList))
      else none :=
  C8_amended _ _ _ (by decide) (by decide) (by decide)

/-- C9: the spec claims the fallback masks every pair whose name
**contains** a sensitive keyword.  Counterexample: `x?mytoken=abc` fails
URL parsing, its parameter name `mytoken` contains `token`, yet the
fallback regex anchors the keyword right after `?`/`&`, so nothing is
replaced and `abc` survives. -/
theorem C9_counterexample :
    jsUrlParse "x?mytoken=abc".toList = none ∧
    containsSub "mytoken".toList "token".toList = true ∧
    maskUrl "x?mytoken=abc" = "x?mytoken=abc" := by
  refine ⟨by decide, by decide, by decide⟩

/-- C9 (amended): on every string whose URL parse fails, `maskUrl` does
not raise and returns exactly the fallback-regex rewrite, which replaces
the value of each `?`/`&`-introduced pair whose name **begins with**
token/key/password/secret/auth; in particular the spec's example
`not a real url?token=abc` gets its token value replaced. -/
theorem C9_amended :
    (∀ (s : String), jsUrlParse s.toList = none →
      maskUrl s = String.mk (fallbackMaskL s.toList)) ∧
    maskUrl "not a real url?token=abc" =
      "not a real url?token=***MASKED***" := by
  constructor
  · intro s h
    show String.mk (maskUrlL s.toList) = String.mk (fallbackMaskL s.toList)
    congr 1
    unfold maskUrlL
    by_cases he : s.toList = []
    · rw [if_pos he, he]
      rfl
    · rw [if_neg he, h]
  · decide

/-- C9 (amended) witness on a parse-failing string. -/
theorem C9_amended_witness :
    maskUrl "q?auth=1" = String.mk (fallbackMaskL "q?auth=1".toList) :=
  C9_amended.1 "q?auth=1" (by decide)

/-- C10: when `url` is absent the masked record carries `some ""` and
when `headers` is absent it carries `some []` — absence of the optional
fields is not preserved — although `maskUrl` itself returns the empty
string unchanged. -/
theorem C10_absent_fields : ∀ (e : LogEntry),
    e.url = none → e.headers = none →
    (maskLogEntry e).url = some "" ∧ (maskLogEntry e).headers = some [] ∧
    maskUrl "" = "" := by
  intro e hu hh
  cases e with
  | mk i t l m c u r hd =>
    replace hu : u = none := hu
    replace hh : hd = none := hh
    subst hu
    subst hh
    exact ⟨rfl, rfl, by decide⟩

/-- C10 witness on a concrete record lacking both optional fields. -/
theorem C10_absent_fields_witness :
    (maskLogEntry
        { id := "log-1", timestamp := "t", level := "INFO", message := "x",
          component := none, url := none, responseCode := none,
          headers := none }).url = some "" ∧
    (maskLogEntry
        { id := "log-1", timestamp := "t", level := "INFO", message := "x",
          component := none, url := none, responseCode := none,
          headers := none }).headers = some [] ∧
    maskUrl "" = "" :=
  C10_absent_fields _ rfl rfl

end LogPilot
